import Mathlib

/-!
Verification of the period-based goal tracking engine of mokuro-reader
(src/lib/settings/goals.ts and the goal-management views).

Shallow embedding conventions:
  * A JavaScript Date value is modelled as an integer count of milliseconds
    since the epoch; an invalid Date (NaN time value) is modelled as `none`
    in `Option Int`.  The local timezone is modelled as UTC with no DST, so
    every local day is exactly 86400000 ms long.
  * `new Date(y, m, d)` normalizes month/day overflow exactly like JS; the
    conversion between (year, month, day) and epoch day counts uses the
    standard civil-calendar algorithm, which agrees with the ECMAScript
    MakeDay specification.
  * JavaScript objects used as string-keyed records are modelled as
    association lists in insertion order; assigning to an existing key
    replaces the entry in place, assigning a fresh key appends.
  * `Number(s)` is modelled on integer literals (optional leading minus,
    digits; the empty string yields 0, anything else yields NaN = `none`).
  * ISO timestamp parsing (`new Date(isoString)`) is modelled for the
    formats `YYYY-MM-DD`, `YYYY-MM-DDTHH:MM:SSZ` and
    `YYYY-MM-DDTHH:MM:SS.mmmZ`; other strings parse to an invalid date.
-/

namespace Goals

/-! ## Civil calendar arithmetic (the semantics of ECMAScript MakeDay).
Decomposition of a day-of-era `doe < 146097` into year-of-era, month and
day, following the standard civil-from-days algorithm. -/

/-- Year of era (0..399) of a day of era. -/
def yoeOfDoe (doe : Nat) : Nat :=
  (doe - doe / 1460 + doe / 36524 - doe / 146096) / 365

/-- Day of year (0..365, March-based) of a day of era. -/
def doyOfDoe (doe : Nat) : Nat :=
  doe - (365 * yoeOfDoe doe + yoeOfDoe doe / 4 - yoeOfDoe doe / 100)

/-- March-based month index (0..11) of a day of era. -/
def mpOfDoe (doe : Nat) : Nat :=
  (5 * doyOfDoe doe + 2) / 153

/-- Civil month (1..12) of a day of era. -/
def monthOfDoe (doe : Nat) : Nat :=
  if mpOfDoe doe < 10 then mpOfDoe doe + 3 else mpOfDoe doe - 9

/-- Civil day of month (1..31) of a day of era. -/
def dayOfDoe (doe : Nat) : Nat :=
  doyOfDoe doe - (153 * mpOfDoe doe + 2) / 5 + 1

/-- Convert an epoch day number to a civil (year, month 1..12, day 1..31)
triple, as `Date.prototype.getFullYear/getMonth/getDate` do for a local
midnight. -/
def civilFromDays (z : Int) : Int × Nat × Nat :=
  let doe := ((z + 719468) % 146097).toNat
  ((z + 719468) / 146097 * 400 + yoeOfDoe doe
      + (if monthOfDoe doe ≤ 2 then 1 else 0),
    monthOfDoe doe, dayOfDoe doe)

/-- Convert a civil (year, month 1..12, day) triple to an epoch day number.
The day component is an arbitrary integer: day overflow is meaningful, as
in `new Date(y, m, d)`. -/
def daysFromCivil (y : Int) (m : Nat) (d : Int) : Int :=
  let y' := y - (if m ≤ 2 then 1 else 0)
  let yoe := (y' - y' / 400 * 400).toNat
  y' / 400 * 146097 + (yoe * 365 + yoe / 4 - yoe / 100 : Nat)
    + ((153 * (if 3 ≤ m then m - 3 else m + 9) + 2) / 5 : Nat) + d - 1 - 719468

/-- The epoch day of `new Date(y, m, d)` (month is 0-based and may overflow
in either direction, as in JS). -/
def jsDateDays (y m d : Int) : Int :=
  daysFromCivil ((y * 12 + m) / 12) (((y * 12 + m) % 12).toNat + 1) d

set_option maxHeartbeats 1600000 in
theorem yoe_core (doe a : Nat) (h : doe < 146097)
    (ha : a = (doe - doe / 1460 + doe / 36524 - doe / 146096) / 365) :
    a ≤ 399 ∧ 365 * a + a / 4 - a / 100 ≤ doe ∧
    doe - (365 * a + a / 4 - a / 100) ≤ 365 := by
  subst ha
  set a := (doe - doe / 1460 + doe / 36524 - doe / 146096) / 365 with ha
  have hb : a ≤ 399 := by omega
  have h2 : doe / 36524 = 0 ∨ doe / 36524 = 1 ∨ doe / 36524 = 2 ∨
      doe / 36524 = 3 ∨ doe / 36524 = 4 := by omega
  have h3 : doe / 146096 = 0 ∨ doe / 146096 = 1 := by omega
  have h4 : a / 100 = 0 ∨ a / 100 = 1 ∨ a / 100 = 2 ∨ a / 100 = 3 := by omega
  rcases h2 with h2 | h2 | h2 | h2 | h2 <;> rcases h3 with h3 | h3 <;>
    rcases h4 with h4 | h4 | h4 | h4 <;> omega

theorem doe_facts (doe : Nat) (h : doe < 146097) :
    yoeOfDoe doe ≤ 399 ∧
    365 * yoeOfDoe doe + yoeOfDoe doe / 4 - yoeOfDoe doe / 100 ≤ doe ∧
    doyOfDoe doe ≤ 365 := by
  obtain ⟨h1, h2, h3⟩ := yoe_core doe (yoeOfDoe doe) h (by rw [yoeOfDoe])
  refine ⟨h1, h2, ?_⟩
  rw [doyOfDoe]
  exact h3

set_option maxHeartbeats 1600000 in
theorem month_day_facts (doe : Nat) (h : doe < 146097) :
    1 ≤ monthOfDoe doe ∧ monthOfDoe doe ≤ 12 ∧
    1 ≤ dayOfDoe doe ∧ dayOfDoe doe ≤ 31 ∧
    365 * yoeOfDoe doe + yoeOfDoe doe / 4 - yoeOfDoe doe / 100
      + ((153 * (if 3 ≤ monthOfDoe doe then monthOfDoe doe - 3
          else monthOfDoe doe + 9) + 2) / 5)
      + dayOfDoe doe - 1 = doe := by
  obtain ⟨hy, hs, hdoy⟩ := doe_facts doe h
  have hdd : 365 * yoeOfDoe doe + yoeOfDoe doe / 4 - yoeOfDoe doe / 100 + doyOfDoe doe
      = doe := by
    rw [doyOfDoe]
    omega
  simp only [monthOfDoe, dayOfDoe, mpOfDoe]
  set doy := doyOfDoe doe with hd
  set mp := (5 * doy + 2) / 153 with hmp
  have hmp11 : mp ≤ 11 := by omega
  rcases Nat.lt_or_ge mp 10 with h10 | h10
  · rw [if_pos h10, if_pos (by omega : 3 ≤ mp + 3)]
    have hc : mp = 0 ∨ mp = 1 ∨ mp = 2 ∨ mp = 3 ∨ mp = 4 ∨ mp = 5 ∨ mp = 6 ∨
        mp = 7 ∨ mp = 8 ∨ mp = 9 := by omega
    rcases hc with hc | hc | hc | hc | hc | hc | hc | hc | hc | hc <;> omega
  · rw [if_neg (by omega : ¬ mp < 10), if_neg (by omega : ¬ 3 ≤ mp - 9)]
    have hc : mp = 10 ∨ mp = 11 := by omega
    rcases hc with hc | hc <;> omega

theorem daysFromCivil_recompose (z : Int) (doe Y M D : Nat)
    (hdoe : (doe : Int) = (z + 719468) % 146097)
    (hY : Y ≤ 399)
    (hM1 : 1 ≤ M) (hM2 : M ≤ 12) (hD1 : 1 ≤ D)
    (hrec : 365 * Y + Y / 4 - Y / 100
      + ((153 * (if 3 ≤ M then M - 3 else M + 9) + 2) / 5) + D - 1 = doe) :
    daysFromCivil ((z + 719468) / 146097 * 400 + Y + (if M ≤ 2 then 1 else 0))
      M D = z := by
  simp only [daysFromCivil]
  by_cases h3 : 3 ≤ M
  · rw [if_pos h3] at hrec
    rw [if_pos h3, if_neg (by omega : ¬ M ≤ 2)]
    rw [show ((z + 719468) / 146097 * 400 + (Y : Int) + 0 - 0) / 400
        = (z + 719468) / 146097 from by omega]
    rw [show ((z + 719468) / 146097 * 400 + (Y : Int) + 0 - 0
        - (z + 719468) / 146097 * 400).toNat = Y from by omega]
    omega
  · rw [if_neg h3] at hrec
    rw [if_neg h3, if_pos (by omega : M ≤ 2)]
    rw [show ((z + 719468) / 146097 * 400 + (Y : Int) + 1 - 1) / 400
        = (z + 719468) / 146097 from by omega]
    rw [show ((z + 719468) / 146097 * 400 + (Y : Int) + 1 - 1
        - (z + 719468) / 146097 * 400).toNat = Y from by omega]
    omega

theorem daysFromCivil_civilFromDays (z : Int) :
    daysFromCivil (civilFromDays z).1 (civilFromDays z).2.1 (civilFromDays z).2.2 = z := by
  have hlt : ((z + 719468) % 146097).toNat < 146097 := by omega
  obtain ⟨hm1, hm2, hd1, hd2, hrec⟩ := month_day_facts _ hlt
  obtain ⟨hy, hs, hdoy⟩ := doe_facts _ hlt
  simp only [civilFromDays]
  exact daysFromCivil_recompose z _ _ _ _ (by omega) hy hm1 hm2 hd1 hrec

theorem civilFromDays_month_bounds (z : Int) :
    1 ≤ (civilFromDays z).2.1 ∧ (civilFromDays z).2.1 ≤ 12 := by
  have hlt : ((z + 719468) % 146097).toNat < 146097 := by omega
  obtain ⟨hm1, hm2, _⟩ := month_day_facts _ hlt
  exact ⟨hm1, hm2⟩

theorem daysFromCivil_day_add (y : Int) (m : Nat) (d k : Int) :
    daysFromCivil y m (d + k) = daysFromCivil y m d + k := by
  simp only [daysFromCivil]
  split <;> omega

theorem jsDateDays_of_month_in_range (y : Int) (m : Nat) (d : Int)
    (h1 : 1 ≤ m) (h2 : m ≤ 12) :
    jsDateDays y ((m : Int) - 1) d = daysFromCivil y m d := by
  simp only [jsDateDays]
  have he : (y * 12 + ((m : Int) - 1)) / 12 = y := by omega
  have hm : (((y * 12 + ((m : Int) - 1)) % 12).toNat + 1) = m := by omega
  rw [he, hm]

/-! ## Millisecond-level Date model -/

/-- Local-midnight day index of a time value. -/
def floorDay (t : Int) : Int := t / 86400000

/-- `Date.prototype.getFullYear` (local). -/
def getFullYear (t : Int) : Int := (civilFromDays (floorDay t)).1

/-- `Date.prototype.getMonth` (local, 0-based). -/
def getMonth (t : Int) : Nat := (civilFromDays (floorDay t)).2.1 - 1

/-- `Date.prototype.getDate` (local, 1-based). -/
def getDate (t : Int) : Nat := (civilFromDays (floorDay t)).2.2

/-- Time value of `new Date(y, m, d)` at local midnight (month 0-based,
arbitrary overflow in month and day). -/
def jsMakeDate (y m d : Int) : Int := jsDateDays y m d * 86400000

/-- `new Date(y, m, d)` including the ECMAScript time-value range check
(±100000000 days): out-of-range constructions are invalid dates. `none`
inputs model NaN components. -/
def jsMakeDateOpt (y m d : Option Int) : Option Int :=
  match y, m, d with
  | some y, some m, some d =>
      if (jsDateDays y m d).natAbs ≤ 100000000 then some (jsMakeDate y m d) else none
  | _, _, _ => none

theorem jsMakeDate_rebuild (t k : Int) :
    jsMakeDate (getFullYear t) (getMonth t) ((getDate t : Int) + k)
      = (floorDay t + k) * 86400000 := by
  have hb := civilFromDays_month_bounds (floorDay t)
  simp only [jsMakeDate, getFullYear, getMonth, getDate]
  rw [show (((civilFromDays (floorDay t)).2.1 - 1 : Nat) : Int)
      = ((civilFromDays (floorDay t)).2.1 : Int) - 1 from by omega]
  rw [jsDateDays_of_month_in_range _ _ _ hb.1 hb.2, daysFromCivil_day_add,
    daysFromCivil_civilFromDays]

theorem jsMakeDate_trunc (t : Int) :
    jsMakeDate (getFullYear t) (getMonth t) (getDate t) = floorDay t * 86400000 := by
  have h := jsMakeDate_rebuild t 0
  simpa using h

/-! ## Number() and the local YYYY-MM-DD parse used by calculateDaysRemaining -/

/-- Numeric value of a digit list (none when empty or not all digits). -/
def digitsToNat (cs : List Char) : Option Nat :=
  if cs ≠ [] ∧ cs.all Char.isDigit then
    some (cs.foldl (fun acc c => acc * 10 + (c.toNat - 48)) 0)
  else none

/-- `Number(s)` on integer literals; `none` models NaN. The empty string
converts to 0, as in JS. -/
def jsNumber (s : String) : Option Int :=
  if s = "" then some 0
  else
    match s.toList with
    | '-' :: rest => (digitsToNat rest).map (fun n => -(n : Int))
    | cs => (digitsToNat cs).map (fun n => (n : Int))

/-- JS `split` on "-" (single-character separator). -/
def splitDashAux : List Char → List Char → List String
  | [], acc => [String.mk acc.reverse]
  | c :: rest, acc =>
      if c = '-' then String.mk acc.reverse :: splitDashAux rest []
      else splitDashAux rest (c :: acc)

def jsSplitDash (s : String) : List String := splitDashAux s.toList []

/-- `Number(parts[i])`; a missing part is `Number(undefined) = NaN`. -/
def jsNumberAt (parts : List String) (i : Nat) : Option Int :=
  match parts.get? i with
  | none => none
  | some p => jsNumber p

/-- The string branch of `calculateDaysRemaining`: split on "-", map
`Number`, build `new Date(year, month - 1, day)`. `none` is an invalid
date (which the source then maps to 0). -/
def parseLocalYMD (s : String) : Option Int :=
  let parts := jsSplitDash s
  match jsNumberAt parts 0, jsNumberAt parts 1, jsNumberAt parts 2 with
  | some y, some m, some d => jsMakeDateOpt (some y) (some (m - 1)) (some d)
  | _, _, _ => none

/-- `dateUtils.calculateDaysRemaining` for a valid end Date value: midnight
after the deadline day minus midnight of the start day, ms to days,
rounded, floored at 0. -/
def calculateDaysRemainingOfDate (endDate startDate : Int) : Int :=
  max 0 (round
    (((jsMakeDate (getFullYear endDate) (getMonth endDate) ((getDate endDate : Int) + 1)
        - jsMakeDate (getFullYear startDate) (getMonth startDate) (getDate startDate) : Int) : ℚ)
      / (1000 * 60 * 60 * 24)))

/-- `dateUtils.calculateDaysRemaining` with a string end date: parse as a
local date; an invalid date yields 0. -/
def calculateDaysRemaining (endDate : String) (startDate : Int) : Int :=
  match parseLocalYMD endDate with
  | none => 0
  | some endD => calculateDaysRemainingOfDate endD startDate

/-- `getDaysRemainingInPeriod` for a valid period end: the period end is an
exclusive bound, so its own midnight is used without adding a day. -/
def getDaysRemainingInPeriod (periodEnd now : Int) : Int :=
  max 0 (round
    (((jsMakeDate (getFullYear periodEnd) (getMonth periodEnd) (getDate periodEnd)
        - jsMakeDate (getFullYear now) (getMonth now) (getDate now) : Int) : ℚ)
      / (1000 * 60 * 60 * 24)))

/-- The §4.1 "days remaining" formula as the spec words it: midnight after
the deadline date, minus the start truncated to midnight, converted from ms
to days, rounded, floored at 0. -/
def daysRemainingSpec (endD startD : Int) : Int :=
  max 0 (round
    ((((floorDay endD + 1) * 86400000 - floorDay startD * 86400000 : Int) : ℚ) / 86400000))

theorem ms_div_day (a b : Int) :
    ((a * 86400000 - b * 86400000 : Int) : ℚ) / (1000 * 60 * 60 * 24) = ((a - b : Int) : ℚ) := by
  push_cast
  field_simp
  ring

theorem ms_div_day86 (a b : Int) :
    ((a * 86400000 - b * 86400000 : Int) : ℚ) / 86400000 = ((a - b : Int) : ℚ) := by
  push_cast
  field_simp
  ring

theorem calculateDaysRemainingOfDate_eq (endD startD : Int) :
    calculateDaysRemainingOfDate endD startD = max 0 (floorDay endD + 1 - floorDay startD) := by
  rw [calculateDaysRemainingOfDate, jsMakeDate_rebuild, jsMakeDate_trunc, ms_div_day]
  rw [round_intCast]

theorem getDaysRemainingInPeriod_eq (periodEnd now : Int) :
    getDaysRemainingInPeriod periodEnd now = max 0 (floorDay periodEnd - floorDay now) := by
  rw [getDaysRemainingInPeriod, jsMakeDate_trunc, jsMakeDate_trunc, ms_div_day]
  rw [round_intCast]

theorem daysRemainingSpec_eq (endD startD : Int) :
    daysRemainingSpec endD startD = max 0 (floorDay endD + 1 - floorDay startD) := by
  rw [daysRemainingSpec, ms_div_day86, round_intCast]

/-! ## String-keyed records (JS objects) as association lists -/

/-- A JS object used as a string-keyed map, in property insertion order. -/
abbrev StrMap (α : Type) := List (String × α)

/-- Property lookup `m[k]` (`none` = undefined). -/
def recGet {α : Type} (m : StrMap α) (k : String) : Option α :=
  (m.find? (fun p => p.1 == k)).map (fun p => p.2)

/-- Property lookup with a default. -/
def recGetD {α : Type} (m : StrMap α) (k : String) (d : α) : α :=
  (recGet m k).getD d

/-- Key presence test. -/
def recHas {α : Type} (m : StrMap α) (k : String) : Bool :=
  (recGet m k).isSome

/-- Property assignment `m[k] = v`: replaces the entry in place when the
key exists, appends otherwise. -/
def recSet {α : Type} : StrMap α → String → α → StrMap α
  | [], k, v => [(k, v)]
  | a :: m, k, v => if a.1 = k then (k, v) :: m else a :: recSet m k v

/-- Number of entries stored under a key (1 for well-formed objects). -/
def recCountKey {α : Type} (m : StrMap α) (k : String) : Nat :=
  (m.filter (fun p => p.1 == k)).length

/-- All keys distinct: the well-formedness invariant of a JS object. -/
def recNodup {α : Type} (m : StrMap α) : Prop :=
  (m.map Prod.fst).Nodup

theorem recGet_nil {α : Type} (k : String) : recGet ([] : StrMap α) k = none := rfl

theorem recGet_cons {α : Type} (a : String × α) (m : StrMap α) (k : String) :
    recGet (a :: m) k = if a.1 = k then some a.2 else recGet m k := by
  simp only [recGet]
  by_cases h : a.1 = k
  · rw [List.find?_cons_of_pos _ (by simpa using h)]
    simp [h]
  · rw [List.find?_cons_of_neg _ (by simpa using h)]
    simp [h]

theorem recGet_append {α : Type} (m₁ m₂ : StrMap α) (k : String) :
    recGet (m₁ ++ m₂) k =
      match recGet m₁ k with
      | some v => some v
      | none => recGet m₂ k := by
  induction m₁ with
  | nil => simp [recGet_nil]
  | cons a m ih =>
      rw [List.cons_append, recGet_cons, recGet_cons]
      by_cases h : a.1 = k <;> simp [h, ih]

theorem recHas_cons {α : Type} (a : String × α) (m : StrMap α) (k : String) :
    recHas (a :: m) k = (a.1 = k ∨ recHas m k : Bool) := by
  simp only [recHas, recGet_cons]
  by_cases h : a.1 = k <;> simp [h]

theorem recGet_set {α : Type} (m : StrMap α) (k : String) (v : α) (k' : String) :
    recGet (recSet m k v) k' = if k' = k then some v else recGet m k' := by
  induction m with
  | nil =>
      rw [recSet, recGet_cons, recGet_nil]
      by_cases h : k' = k
      · rw [if_pos h, if_pos h.symm]
      · rw [if_neg h, if_neg (fun hh : (k, v).1 = k' => h hh.symm)]
  | cons a m ih =>
      rw [recSet]
      by_cases ha : a.1 = k
      · rw [if_pos ha, recGet_cons, recGet_cons]
        by_cases h : k' = k
        · rw [if_pos h, if_pos (show (k, v).1 = k' from h.symm)]
        · rw [if_neg (show ¬ (k, v).1 = k' from fun hh => h hh.symm), if_neg h,
            if_neg (show ¬ a.1 = k' from fun hh => h (ha ▸ hh).symm)]
  -- a.1 = k and a.1 = k' give k = k'
      · rw [if_neg ha, recGet_cons, recGet_cons, ih]
        by_cases h2 : a.1 = k'
        · by_cases h : k' = k
          · exact absurd (h ▸ h2) ha
          · rw [if_pos h2, if_neg h, if_pos h2]
        · by_cases h : k' = k
          · rw [if_neg h2, if_pos h, if_pos h]
          · rw [if_neg h2, if_neg h, if_neg h, if_neg h2]

theorem recCountKey_cons {α : Type} (a : String × α) (m : StrMap α) (k : String) :
    recCountKey (a :: m) k = (if a.1 = k then 1 else 0) + recCountKey m k := by
  by_cases h : a.1 = k
  · have hb : (a.1 == k) = true := by simpa using h
    simp only [recCountKey, List.filter_cons, hb, if_true, if_pos h, List.length_cons]
    omega
  · have hb : (a.1 == k) = false := by simpa using h
    simp [recCountKey, List.filter_cons, hb, h]

theorem recCountKey_set {α : Type} (m : StrMap α) (k : String) (v : α) (k' : String) :
    recCountKey (recSet m k v) k'
      = if k' = k ∧ recHas m k = false then recCountKey m k' + 1 else recCountKey m k' := by
  induction m with
  | nil =>
      rw [recSet, recCountKey_cons]
      by_cases h : k' = k
      · simp [recHas, recGet_nil, h, recCountKey]
      · have hks : ¬ k = k' := fun hh => h hh.symm
        simp [recHas, recGet_nil, h, hks, recCountKey]
  | cons a m ih =>
      rw [recSet]
      by_cases ha : a.1 = k
      · rw [if_pos ha, recCountKey_cons, recCountKey_cons, recHas_cons]
        by_cases h : k' = k
        · simp [ha, h]
        · have hks : ¬ k = k' := fun hh => h hh.symm
          simp [ha, h, hks]
      · rw [if_neg ha, recCountKey_cons, recCountKey_cons, ih, recHas_cons]
        by_cases h : k' = k
        · by_cases hm : recHas m k = false <;> simp [ha, h, hm]
        · simp [h]

theorem recCountKey_pos_of_has {α : Type} (m : StrMap α) (k : String)
    (h : recHas m k = true) : 1 ≤ recCountKey m k := by
  induction m with
  | nil => simp [recHas, recGet_nil] at h
  | cons a m ih =>
      rw [recHas_cons] at h
      rw [recCountKey_cons]
      by_cases ha : a.1 = k
      · simp [ha]
      · have h' : recHas m k = true := by simpa [ha] using h
        have := ih h'
        simp [ha]
        omega

theorem recCountKey_zero_of_not_has {α : Type} (m : StrMap α) (k : String)
    (h : recHas m k = false) : recCountKey m k = 0 := by
  induction m with
  | nil => rfl
  | cons a m ih =>
      rw [recHas_cons] at h
      have hor : ¬ (a.1 = k ∨ recHas m k = true) := by simpa using h
      obtain ⟨h1, h2⟩ := not_or.mp hor
      rw [recCountKey_cons, if_neg h1, ih (by simpa using h2)]

/-! ## ISO timestamp parsing (`new Date(isoString).getTime()`) -/

/-- Two decimal digits. -/
def twoDigits (a b : Char) : Option Nat :=
  if a.isDigit ∧ b.isDigit then some ((a.toNat - 48) * 10 + (b.toNat - 48)) else none

/-- Three decimal digits. -/
def threeDigits (a b c : Char) : Option Nat :=
  if a.isDigit ∧ b.isDigit ∧ c.isDigit then
    some ((a.toNat - 48) * 100 + (b.toNat - 48) * 10 + (c.toNat - 48))
  else none

/-- The date part `YYYY-MM-DD` of an ISO string, as a midnight time value. -/
def isoDateMs (a b c d e f g h : Char) : Option Int :=
  match twoDigits a b, twoDigits c d, twoDigits e f, twoDigits g h with
  | some y12, some y34, some mm, some dd =>
      if 1 ≤ mm ∧ mm ≤ 12 ∧ 1 ≤ dd ∧ dd ≤ 31 then
        some (jsMakeDate ((y12 * 100 + y34 : Nat) : Int) ((mm : Int) - 1) (dd : Int))
      else none
  | _, _, _, _ => none

/-- The time part `HH:MM:SS` plus a fractional-millisecond value. -/
def isoTimeMs (p q r t u v : Char) (frac : Nat) : Option Int :=
  match twoDigits p q, twoDigits r t, twoDigits u v with
  | some hh, some nn, some ss =>
      if hh ≤ 23 ∧ nn ≤ 59 ∧ ss ≤ 59 then
        some ((hh * 3600000 + nn * 60000 + ss * 1000 + frac : Nat) : Int)
      else none
  | _, _, _ => none

/-- `new Date(s).getTime()` for the ISO formats used by the engine
(`YYYY-MM-DD`, `YYYY-MM-DDTHH:MM:SSZ`, `YYYY-MM-DDTHH:MM:SS.mmmZ`);
`none` models an invalid date (NaN). -/
def parseIsoDate (s : String) : Option Int :=
  match s.toList with
  | [a, b, c, d, '-', e, f, '-', g, h] => isoDateMs a b c d e f g h
  | [a, b, c, d, '-', e, f, '-', g, h, 'T', p, q, ':', r, t, ':', u, v, 'Z'] =>
      match isoDateMs a b c d e f g h, isoTimeMs p q r t u v 0 with
      | some dm, some tm => some (dm + tm)
      | _, _ => none
  | [a, b, c, d, '-', e, f, '-', g, h, 'T', p, q, ':', r, t, ':', u, v, '.', w, x, y, 'Z'] =>
      match threeDigits w x y with
      | some frac =>
          match isoDateMs a b c d e f g h, isoTimeMs p q r t u v frac with
          | some dm, some tm => some (dm + tm)
          | _, _ => none
      | none => none
  | _ => none

/-- `isDateWithinRange(dateIso, start, end)`: false when any of the three
dates is invalid, else `start <= date < end`. -/
def isDateWithinRange (dateIso : String) (start end_ : Option Int) : Bool :=
  match parseIsoDate dateIso, start, end_ with
  | some t, some s, some e => decide (s ≤ t) && decide (t < e)
  | _, _, _ => false

/-! ## Goal data model (goals.ts types) -/

inductive GoalType
  | year | season | month | today | custom
deriving DecidableEq

structure GoalTarget where
  goalType : GoalType
  periodKey : String
  targetVolumes : Int
  createdAt : String
deriving DecidableEq

structure CustomGoal where
  id : String
  name : String
  targetVolumes : Int
  startDate : String
  endDate : String
  enabled : Bool
  createdAt : String
deriving DecidableEq

inductive GoalSelection
  | periodSel (goalType : GoalType) (periodKey : String)
  | customSel (customId : String)
deriving DecidableEq

structure GoalPeriod where
  goalType : GoalType
  periodKey : String
  label : String
  start : Option Int
  end_ : Option Int
deriving DecidableEq

structure GoalSnapshot where
  goalType : GoalType
  periodKey : String
  startDate : String
  endDate : String
  closedAt : String
  completed : StrMap String
deriving DecidableEq

structure GoalsData where
  targets : List GoalTarget
  customGoals : List CustomGoal
  activeSelection : GoalSelection
deriving DecidableEq

/-- The volume ledger is volumeId to completedAt ISO string. -/
abbrev CompletedAtMap := StrMap String

/-! ## Date formatting and key building -/

def padTwo (n : Nat) : String :=
  if n < 10 then "0" ++ toString n else toString n

def padThree (n : Nat) : String :=
  if n < 10 then "00" ++ toString n
  else if n < 100 then "0" ++ toString n else toString n

/-- `dateUtils.formatDate`: YYYY-MM-DD from the local components. -/
def formatDate (t : Int) : String :=
  toString (getFullYear t) ++ "-" ++ padTwo (getMonth t + 1) ++ "-" ++ padTwo (getDate t)

/-- Formatting through an invalid date renders NaN components. -/
def formatDateOpt : Option Int → String
  | some t => formatDate t
  | none => "NaN-NaN-NaN"

/-- `Date.prototype.toISOString` (expanded-year formats abstracted to the
plain year digits). -/
def toISOString (t : Int) : String :=
  let c := civilFromDays (floorDay t)
  let ms := (t % 86400000).toNat
  toString c.1 ++ "-" ++ padTwo c.2.1 ++ "-" ++ padTwo c.2.2 ++ "T" ++
    padTwo (ms / 3600000) ++ ":" ++ padTwo (ms / 60000 % 60) ++ ":" ++
    padTwo (ms / 1000 % 60) ++ "." ++ padThree (ms % 1000) ++ "Z"

/-- `toLocaleDateString` is locale dependent; modelled as a fixed rendering
of the date ("Invalid Date" for an invalid one). No claim inspects it. -/
def localeDateString : Option Int → String
  | none => "Invalid Date"
  | some t => formatDate t

def seasonNames : List String := ["Winter", "Spring", "Summer", "Autumn"]

/-- `dateUtils.seasonIndex`: the quarter of the month. -/
def seasonIndex (t : Int) : Nat := getMonth t / 3

def buildSeasonKey (year : Int) (seasonIdx : Nat) : String :=
  toString year ++ "-" ++ seasonNames.getD seasonIdx "Unknown"

def buildMonthKey (year : Int) (monthIndex : Nat) : String :=
  toString year ++ "-" ++ padTwo (monthIndex + 1)

def buildYearKey (year : Int) : String := toString year

def buildTodayKey (t : Int) : String := formatDate t

/-- `dateUtils.seasonRange`. -/
def seasonRange (year : Int) (seasonIdx : Nat) : Option Int × Option Int :=
  (jsMakeDateOpt (some year) (some (seasonIdx * 3)) (some 1),
   jsMakeDateOpt (some year) (some (seasonIdx * 3 + 3)) (some 1))

/-- `dateUtils.monthRange`; the month index may be NaN (`none`), in which
case both bounds are invalid dates. -/
def monthRange (year : Int) (monthIndex : Option Int) : Option Int × Option Int :=
  (jsMakeDateOpt (some year) monthIndex (some 1),
   jsMakeDateOpt (some year) (monthIndex.map (fun m => m + 1)) (some 1))

/-! ## Period-key parsing and the Period Resolver -/

/-- `parseSeasonKey`. -/
def parseSeasonKey (periodKey : String) : Option (Int × Nat) :=
  let parts := jsSplitDash periodKey
  match jsNumber (parts.getD 0 "") with
  | none => none
  | some year =>
      match seasonNames.indexOf? (parts.getD 1 "") with
      | none => none
      | some seasonIdx => some (year, seasonIdx)

/-- `parseMonthKey`. A missing or non-numeric month part gives a NaN month
index, which passes the `< 0 || > 11` range check (both comparisons are
false on NaN) and so is returned rather than rejected. -/
def parseMonthKey (periodKey : String) : Option (Int × Option Int) :=
  let parts := jsSplitDash periodKey
  match jsNumber (parts.getD 0 "") with
  | none => none
  | some year =>
      match (jsNumberAt parts 1).map (fun m => m - 1) with
      | some mi => if mi < 0 ∨ mi > 11 then none else some (year, some mi)
      | none => some (year, none)

/-- `parseYearKey`: `Number(periodKey)` if finite. -/
def parseYearKey (periodKey : String) : Option Int := jsNumber periodKey

/-- Falsiness of a JS number (NaN or 0). -/
def jsFalsy : Option Int → Bool
  | none => true
  | some n => n == 0

/-- `getPeriodForSelection`. The trailing fallback of the source (line
290), unreachable under the TS union type, returns a Today period built
from the current clock. -/
def getPeriodForSelection (now : Int) (selection : GoalSelection) : Option GoalPeriod :=
  match selection with
  | .customSel _ => none
  | .periodSel gt periodKey =>
    match gt with
    | .year =>
        match parseYearKey periodKey with
        | none => none
        | some year =>
            some { goalType := .year, periodKey := periodKey,
                   label := toString year,
                   start := jsMakeDateOpt (some year) (some 0) (some 1),
                   end_ := jsMakeDateOpt (some (year + 1)) (some 0) (some 1) }
    | .season =>
        match parseSeasonKey periodKey with
        | none => none
        | some yi =>
            some { goalType := .season, periodKey := periodKey,
                   label := seasonNames.getD yi.2 "" ++ " " ++ toString yi.1,
                   start := (seasonRange yi.1 yi.2).1,
                   end_ := (seasonRange yi.1 yi.2).2 }
    | .month =>
        match parseMonthKey periodKey with
        | none => none
        | some ymi =>
            some { goalType := .month, periodKey := periodKey,
                   label := localeDateString (monthRange ymi.1 ymi.2).1,
                   start := (monthRange ymi.1 ymi.2).1,
                   end_ := (monthRange ymi.1 ymi.2).2 }
    | .today =>
        let parts := jsSplitDash periodKey
        let y := jsNumberAt parts 0
        let m := jsNumberAt parts 1
        let d := jsNumberAt parts 2
        if jsFalsy y ∨ jsFalsy m ∨ jsFalsy d then none
        else
          some { goalType := .today, periodKey := periodKey,
                 label := localeDateString (jsMakeDateOpt y (m.map (fun x => x - 1)) d),
                 start := jsMakeDateOpt y (m.map (fun x => x - 1)) d,
                 end_ := jsMakeDateOpt y (m.map (fun x => x - 1)) (d.map (fun x => x + 1)) }
    | .custom =>
        some { goalType := .today, periodKey := buildTodayKey now,
               label := "Today",
               start := jsMakeDateOpt (some (getFullYear now)) (some (getMonth now))
                 (some (getDate now)),
               end_ := jsMakeDateOpt (some (getFullYear now)) (some (getMonth now))
                 (some ((getDate now : Int) + 1)) }

/-- `getCurrentPeriodKey` (called with a non-custom type in the source;
`today` is the fallthrough). -/
def getCurrentPeriodKey (goalType : GoalType) (now : Int) : String :=
  match goalType with
  | .year => buildYearKey (getFullYear now)
  | .season => buildSeasonKey (getFullYear now) (seasonIndex now)
  | .month => buildMonthKey (getFullYear now) (getMonth now)
  | _ => buildTodayKey now

/-! ## Goal Store operations -/

/-- The `findIndex`-then-update-or-push body of `setGoalTarget`. -/
def upsertTarget : List GoalTarget → GoalType → String → Int → String → List GoalTarget
  | [], gt, pk, tv, nowIso =>
      [{ goalType := gt, periodKey := pk, targetVolumes := tv, createdAt := nowIso }]
  | goal :: rest, gt, pk, tv, nowIso =>
      if goal.goalType = gt ∧ goal.periodKey = pk then
        { goal with targetVolumes := tv } :: rest
      else goal :: upsertTarget rest gt pk tv nowIso

/-- `setGoalTarget`: upsert by (goalType, periodKey); existing entries keep
their identity and only update targetVolumes. -/
def setGoalTarget (goalType : GoalType) (periodKey : String) (targetVolumes : Int)
    (nowIso : String) (data : GoalsData) : GoalsData :=
  { data with targets := upsertTarget data.targets goalType periodKey targetVolumes nowIso }

/-- `removeGoalTarget`. -/
def removeGoalTarget (goalType : GoalType) (periodKey : String) (data : GoalsData) : GoalsData :=
  { data with targets := (data.targets.filter
      (fun goal => !(decide (goal.goalType = goalType ∧ goal.periodKey = periodKey)))) }

/-- `setActiveGoalSelection`. -/
def setActiveGoalSelection (selection : GoalSelection) (data : GoalsData) : GoalsData :=
  { data with activeSelection := selection }

/-- `updateCustomGoal`: replace by id. -/
def updateCustomGoal (updatedGoal : CustomGoal) (data : GoalsData) : GoalsData :=
  { data with customGoals := (data.customGoals.map
      (fun goal => if goal.id = updatedGoal.id then updatedGoal else goal)) }

/-- `removeCustomGoal`: delete by id; reset the selection to the current
year when the removed goal was active. -/
def removeCustomGoal (customId : String) (now : Int) (data : GoalsData) : GoalsData :=
  let nextSelection : GoalSelection :=
    match data.activeSelection with
    | .customSel cid =>
        if cid = customId then .periodSel .year (getCurrentPeriodKey .year now)
        else data.activeSelection
    | _ => data.activeSelection
  { data with
      customGoals := data.customGoals.filter (fun goal => goal.id != customId),
      activeSelection := nextSelection }

/-! ## ManageGoalsView save handlers -/

/-- `saveTarget` in ManageGoalsView: rejects a non-positive target, else
stores the target and selects its period. -/
def saveTarget (selectedGoalType : GoalType) (selectedPeriodKey : String)
    (targetValue : Int) (nowIso : String) (data : GoalsData) : GoalsData :=
  if targetValue ≤ 0 then data
  else
    setActiveGoalSelection (.periodSel selectedGoalType selectedPeriodKey)
      (setGoalTarget selectedGoalType selectedPeriodKey targetValue nowIso data)

/-- `saveCustom` in ManageGoalsView: no pending edit or an empty required
field or a non-positive target is a no-op; otherwise the edit is applied
and removed from the pending-edit map. -/
def saveCustom (customEdits : StrMap CustomGoal) (goalId : String) (data : GoalsData) :
    GoalsData × StrMap CustomGoal :=
  match recGet customEdits goalId with
  | none => (data, customEdits)
  | some updated =>
      if updated.name = "" ∨ updated.startDate = "" ∨ updated.endDate = "" ∨
          updated.targetVolumes ≤ 0 then (data, customEdits)
      else (updateCustomGoal updated data, customEdits.filter (fun p => p.1 != goalId))

/-! ## Completion Ledger: sync merge -/

/-- `a < b` on JS time values: false when either side is NaN. -/
def jsLtOpt : Option Int → Option Int → Bool
  | some a, some b => decide (a < b)
  | _, _ => false

/-- One iteration of the `Object.entries(map).forEach` body of
`mergeCompletedAtMapFromSync`: skip an empty incoming value, adopt when
there is no (truthy) local entry, else overwrite exactly when the incoming
time is not NaN and the existing time is NaN or later. -/
def mergeCompletedAtEntry (merged : CompletedAtMap) (e : String × String) : CompletedAtMap :=
  if e.2 = "" then merged
  else if recGetD merged e.1 "" = "" then recSet merged e.1 e.2
  else if (parseIsoDate e.2).isSome &&
      ((parseIsoDate (recGetD merged e.1 "")).isNone ||
        jsLtOpt (parseIsoDate e.2) (parseIsoDate (recGetD merged e.1 ""))) then
    recSet merged e.1 e.2
  else merged

/-- The in-memory update performed by `mergeCompletedAtMapFromSync`. -/
def mergeCompletedAtMapFromSync (current incoming : CompletedAtMap) : CompletedAtMap :=
  incoming.foldl mergeCompletedAtEntry current

/-! ## Completion Ledger: backfill and persistence -/

/-- The shape of the external progress-log entries consumed by the
backfill (`volumes` store). -/
structure VolumeData where
  progress : Int
  completed : Bool
  lastProgressUpdate : String
deriving DecidableEq

/-- An entry of the persisted `volumes` record, which additionally carries
the back-written `completedAt` field ("" = absent). -/
structure VolumeRecord where
  progress : Int
  completed : Bool
  lastProgressUpdate : String
  completedAt : String
deriving DecidableEq

/-- The persistence substrate touched by
`persistCompletedAtMapToVolumes`: the `volumes` record (none = missing or
unparseable) and the completed-at last-updated marker. -/
structure PersistState where
  volumesStore : Option (StrMap VolumeRecord)
  completedAtUpdatedAt : String
deriving DecidableEq

/-- `isVolumeCompleted`. -/
def isVolumeCompleted (volumeData : VolumeData) (totalPages : Int) : Bool :=
  volumeData.completed ||
    (decide (totalPages > 0) && decide (volumeData.progress ≥ totalPages))

/-- One entry of the persist loop: patch `completedAt` into the stored
record when one exists, else skip. -/
def patchVolumeRecord (acc : StrMap VolumeRecord) (e : String × String) : StrMap VolumeRecord :=
  match recGet acc e.1 with
  | none => acc
  | some old => recSet acc e.1 { old with completedAt := e.2 }

/-- Patch the whole ledger into the persisted payload. -/
def patchVolumesPayload (payload : StrMap VolumeRecord) (map : CompletedAtMap) :
    StrMap VolumeRecord :=
  map.foldl patchVolumeRecord payload

/-- `persistCompletedAtMapToVolumes`: no store, no write; otherwise patch
`completedAt` into every stored entry named by the map, write the store
back and refresh the last-updated marker. -/
def persistCompletedAtMapToVolumes (map : CompletedAtMap) (nowIso : String)
    (st : PersistState) : PersistState :=
  match st.volumesStore with
  | none => st
  | some volumesPayload =>
      { volumesStore := some (patchVolumesPayload volumesPayload map),
        completedAtUpdatedAt := nowIso }

/-- One entry of the backfill loop: skip a volume with a (truthy) ledger
entry in the pre-update map, insert `lastProgressUpdate || now` for a
completed one, else skip. -/
def backfillStep (map : CompletedAtMap) (catalog : StrMap Int) (nowIso : String)
    (acc : CompletedAtMap) (e : String × VolumeData) : CompletedAtMap :=
  if recGetD map e.1 "" ≠ "" then acc
  else if isVolumeCompleted e.2 (recGetD catalog e.1 0) then
    recSet acc e.1
      (if e.2.lastProgressUpdate ≠ "" then e.2.lastProgressUpdate else nowIso)
  else acc

/-- The ledger update of the backfill subscriber. The presence check reads
the pre-update map, as in the source closure. -/
def backfillCompletedAt (vols : StrMap VolumeData) (catalog : StrMap Int)
    (map : CompletedAtMap) (nowIso : String) : CompletedAtMap :=
  vols.foldl (backfillStep map catalog nowIso) map

/-- One run of the backfill subscriber: update the in-memory ledger, then
(unconditionally) persist it, refreshing the last-updated marker. -/
def backfillPass (vols : StrMap VolumeData) (catalog : StrMap Int) (nowIso : String)
    (st : CompletedAtMap × PersistState) : CompletedAtMap × PersistState :=
  let m := backfillCompletedAt vols catalog st.1 nowIso
  (m, persistCompletedAtMapToVolumes m nowIso st.2)

/-! ## Snapshot Finalizer -/

def goalTypeName : GoalType → String
  | .year => "year"
  | .season => "season"
  | .month => "month"
  | .today => "today"
  | .custom => "custom"

/-- `buildGoalSnapshotKey`. -/
def buildGoalSnapshotKey (goalType : GoalType) (periodKey : String) : String :=
  goalTypeName goalType ++ ":" ++ periodKey

/-- `createSnapshotForPeriod`: freeze the in-window entries of the ledger. -/
def createSnapshotForPeriod (completedAtMap : CompletedAtMap) (now : Int)
    (goalType : GoalType) (periodKey : String) (start end_ : Option Int) : GoalSnapshot :=
  { goalType := goalType, periodKey := periodKey,
    startDate := formatDateOpt start,
    endDate := formatDateOpt end_,
    closedAt := toISOString now,
    completed := completedAtMap.filter
      (fun e => !(e.2 == "") && isDateWithinRange e.2 start end_) }

/-- `finalizeGoalSnapshot`: insert the frozen snapshot only when no
snapshot exists under the key. -/
def finalizeGoalSnapshot (completedAtMap : CompletedAtMap) (now : Int)
    (goalType : GoalType) (periodKey : String) (start end_ : Option Int)
    (snapshots : StrMap GoalSnapshot) : StrMap GoalSnapshot :=
  if recHas snapshots (buildGoalSnapshotKey goalType periodKey) then snapshots
  else recSet snapshots (buildGoalSnapshotKey goalType periodKey)
    (createSnapshotForPeriod completedAtMap now goalType periodKey start end_)

/-- `getCustomPeriod`: resolve a custom goal from its own date range
(both endpoints inclusive, so the end day is extended by one). -/
def getCustomPeriod (selection : GoalSelection) (custom : List CustomGoal) : Option GoalPeriod :=
  match selection with
  | .periodSel _ _ => none
  | .customSel customId =>
      match custom.find? (fun goal => goal.id == customId) with
      | none => none
      | some goal =>
          let sp := jsSplitDash goal.startDate
          let ep := jsSplitDash goal.endDate
          let sy := jsNumberAt sp 0
          let sm := jsNumberAt sp 1
          let sd := jsNumberAt sp 2
          let ey := jsNumberAt ep 0
          let em := jsNumberAt ep 1
          let ed := jsNumberAt ep 2
          if jsFalsy sy ∨ jsFalsy sm ∨ jsFalsy sd ∨ jsFalsy ey ∨ jsFalsy em ∨ jsFalsy ed
          then none
          else some { goalType := .custom, periodKey := goal.id, label := goal.name,
                      start := jsMakeDateOpt sy (sm.map (fun x => x - 1)) sd,
                      end_ := jsMakeDateOpt ey (em.map (fun x => x - 1))
                        (ed.map (fun x => x + 1)) }

/-- `period.end.getTime() > now.getTime()`: false when the end is invalid. -/
def jsGtOpt : Option Int → Int → Bool
  | some x, b => decide (x > b)
  | none, _ => false

/-- `period.end.getTime() <= now.getTime()`: false when the end is invalid. -/
def jsLeOpt : Option Int → Int → Bool
  | some x, b => decide (x ≤ b)
  | none, _ => false

/-- The clock and stores read by `finalizeClosedGoalSnapshots`. -/
structure SweepEnv where
  data : GoalsData
  completedAtMap : CompletedAtMap
  now : Int

/-- The `targets.forEach` body of `finalizeClosedGoalSnapshots`: skip an
unresolvable or still-open period and any key already present in the
pre-sweep snapshot map `snaps0`, else finalize. -/
def sweepTargetStep (env : SweepEnv) (snaps0 : StrMap GoalSnapshot)
    (acc : StrMap GoalSnapshot) (target : GoalTarget) : StrMap GoalSnapshot :=
  match getPeriodForSelection env.now (.periodSel target.goalType target.periodKey) with
  | none => acc
  | some period =>
      if jsGtOpt period.end_ env.now then acc
      else if recHas snaps0 (buildGoalSnapshotKey period.goalType period.periodKey) then acc
      else finalizeGoalSnapshot env.completedAtMap env.now period.goalType
        period.periodKey period.start period.end_ acc

/-- The `custom.forEach` body of `finalizeClosedGoalSnapshots`: skip a
disabled goal, an unresolvable or still-open period and any key already
present in the pre-sweep snapshot map, else finalize under `custom:{id}`. -/
def sweepCustomStep (env : SweepEnv) (snaps0 : StrMap GoalSnapshot)
    (acc : StrMap GoalSnapshot) (goal : CustomGoal) : StrMap GoalSnapshot :=
  if !goal.enabled then acc
  else
    match getCustomPeriod (.customSel goal.id) env.data.customGoals with
    | none => acc
    | some period =>
        if jsGtOpt period.end_ env.now then acc
        else if recHas snaps0 (buildGoalSnapshotKey .custom goal.id) then acc
        else finalizeGoalSnapshot env.completedAtMap env.now .custom goal.id
          period.start period.end_ acc

/-- `finalizeClosedGoalSnapshots`: sweep targets then enabled custom goals,
finalizing every resolvable period that has ended and has no snapshot. The
outer presence check reads the pre-sweep snapshot map, as in the source;
`finalizeGoalSnapshot` re-checks against the accumulator. -/
def finalizeClosedGoalSnapshots (env : SweepEnv) (snaps0 : StrMap GoalSnapshot) :
    StrMap GoalSnapshot :=
  env.data.customGoals.foldl (sweepCustomStep env snaps0)
    (env.data.targets.foldl (sweepTargetStep env snaps0) snaps0)

/-! ## Progress Calculator (activeGoalProgress) -/

inductive GoalStatus
  | ahead | onTrack | behind | farBehind
deriving DecidableEq

structure GoalProgress where
  title : String
  targetVolumes : Int
  completedVolumes : Nat
  inProgressVolumes : Nat
  totalProgress : ℚ
  progressPercent : ℚ
  /-- `none` models the NaN produced by a period with invalid dates. -/
  expectedProgressPercent : Option ℚ
  status : GoalStatus
  pagesPerDayForGoal : Int
  /-- `none` models the NaN produced by an invalid period end. -/
  daysRemaining : Option Int
  periodLabel : String
  isClosed : Bool

/-- `getTargetForSelection` with the trailing `|| 0` of the caller. -/
def getTargetForSelection (selection : GoalSelection) (targets : List GoalTarget)
    (custom : List CustomGoal) : Int :=
  match selection with
  | .customSel customId =>
      ((custom.find? (fun goal => goal.id == customId)).map
        (fun goal => goal.targetVolumes)).getD 0
  | .periodSel gt pk =>
      ((targets.find? (fun goal => goal.goalType == gt && goal.periodKey == pk)).map
        (fun goal => goal.targetVolumes)).getD 0

/-- `getExpectedProgressPercent`; `none` models NaN from invalid dates. -/
def getExpectedProgressPercent (start end_ : Option Int) (now : Int) : Option ℚ :=
  match start, end_ with
  | some s, some e =>
      if e - s ≤ 0 then some 0
      else some (((min (max (now - s) 0) (e - s) : Int) : ℚ) / ((e - s : Int) : ℚ) * 100)
  | _, _ => none

/-- `getDaysRemainingInPeriod` lifted to a possibly invalid period end;
an invalid end propagates NaN through `Math.max`. -/
def getDaysRemainingInPeriodOpt : Option Int → Int → Option Int
  | none, _ => none
  | some e, now => some (getDaysRemainingInPeriod e now)

/-- The per-period completion counters of `activeGoalProgress`. -/
structure ProgressCounts where
  completedVolumes : Nat
  inProgressVolumes : Nat
  totalFractionProgress : ℚ
  totalRemainingPages : Int

/-- The live branch of the counters: walk the progress log, counting
in-window completions from the ledger, and in-window in-progress volumes
with fractional credit. -/
def liveProgressCounts (vols : StrMap VolumeData) (catalog : StrMap Int)
    (completedAtMap : CompletedAtMap) (start end_ : Option Int) : ProgressCounts :=
  vols.foldl (fun acc e =>
    let totalPages : Int := recGetD catalog e.1 0
    let currentPage : Int := e.2.progress
    let completedAt := recGetD completedAtMap e.1 ""
    if completedAt ≠ "" ∧ isDateWithinRange completedAt start end_ then
      { acc with completedVolumes := acc.completedVolumes + 1 }
    else if currentPage > 1 ∧ totalPages > 0 ∧ e.2.lastProgressUpdate ≠ "" ∧
        isDateWithinRange e.2.lastProgressUpdate start end_ then
      { acc with
          inProgressVolumes := acc.inProgressVolumes + 1,
          totalFractionProgress := acc.totalFractionProgress
            + (currentPage : ℚ) / (totalPages : ℚ),
          totalRemainingPages := acc.totalRemainingPages + (totalPages - currentPage) }
    else acc) ⟨0, 0, 0, 0⟩

/-- The tail of `activeGoalProgress` below the counting: percentages, pace,
status classification and report assembly. -/
def assembleGoalProgress (targetVolumes : Int) (counts : ProgressCounts)
    (period : GoalPeriod) (now : Int) (isClosed : Bool) : GoalProgress :=
  let totalProgress : ℚ := (counts.completedVolumes : ℚ) + counts.totalFractionProgress
  let progressPercent : ℚ :=
    if targetVolumes > 0 then totalProgress / (targetVolumes : ℚ) * 100 else 0
  let expectedProgressPercent := getExpectedProgressPercent period.start period.end_ now
  let daysRemaining := getDaysRemainingInPeriodOpt period.end_ now
  let remainingVolumeEquivalent : ℚ := max 0 ((targetVolumes : ℚ) - totalProgress)
  let avgPagesPerVolume : ℚ :=
    if counts.totalRemainingPages > 0 ∧ counts.inProgressVolumes > 0 then
      (counts.totalRemainingPages : ℚ) / (counts.inProgressVolumes : ℚ)
    else 200
  let estimatedRemainingPages := remainingVolumeEquivalent * avgPagesPerVolume
  let pagesPerDayForGoal : Int :=
    match daysRemaining with
    | some d => if d > 0 then ⌈estimatedRemainingPages / (d : ℚ)⌉ else 0
    | none => 0
  let progressRatio : ℚ :=
    match expectedProgressPercent with
    | some e => if e > 0 then progressPercent / e else if progressPercent > 0 then 2 else 1
    | none => if progressPercent > 0 then 2 else 1
  let status : GoalStatus :=
    if progressRatio ≥ 1.1 then .ahead
    else if progressRatio ≥ 0.9 then .onTrack
    else if progressRatio ≥ 0.5 then .behind
    else .farBehind
  { title := "Reading Goal", targetVolumes := targetVolumes,
    completedVolumes := counts.completedVolumes,
    inProgressVolumes := counts.inProgressVolumes,
    totalProgress := totalProgress, progressPercent := progressPercent,
    expectedProgressPercent := expectedProgressPercent, status := status,
    pagesPerDayForGoal := pagesPerDayForGoal, daysRemaining := daysRemaining,
    periodLabel := period.label, isClosed := isClosed }

/-- The period resolution of `activeGoalProgress` and `activeGoalPeriod`. -/
def resolveSelection (now : Int) (selection : GoalSelection)
    (customGoals : List CustomGoal) : Option GoalPeriod :=
  match selection with
  | .customSel _ => getCustomPeriod selection customGoals
  | .periodSel _ _ => getPeriodForSelection now selection

/-- The degenerate report for an unresolvable selection. -/
def unknownPeriodProgress (targetVolumes : Int) : GoalProgress :=
  { title := "Reading Goal", targetVolumes := targetVolumes, completedVolumes := 0,
    inProgressVolumes := 0, totalProgress := 0, progressPercent := 0,
    expectedProgressPercent := some 0, status := .behind, pagesPerDayForGoal := 0,
    daysRemaining := some 0, periodLabel := "Unknown period", isClosed := false }

/-- The `activeGoalProgress` derived store as a function of its inputs. -/
def activeGoalProgress (selection : GoalSelection) (targets : List GoalTarget)
    (customGoals : List CustomGoal) (vols : StrMap VolumeData) (catalog : StrMap Int)
    (snapshots : StrMap GoalSnapshot) (completedAtMap : CompletedAtMap)
    (now : Int) : GoalProgress :=
  let targetVolumes := getTargetForSelection selection targets customGoals
  match resolveSelection now selection customGoals with
  | none => unknownPeriodProgress targetVolumes
  | some period =>
      let isClosed := jsLeOpt period.end_ now
      match (if isClosed then recGet snapshots (buildGoalSnapshotKey period.goalType period.periodKey)
             else none) with
      | some snap =>
          assembleGoalProgress targetVolumes ⟨snap.completed.length, 0, 0, 0⟩ period now isClosed
      | none =>
          assembleGoalProgress targetVolumes
            (liveProgressCounts vols catalog completedAtMap period.start period.end_)
            period now isClosed

/-- Iterated opportunistic sweeps, each against its own clock and stores. -/
def sweepMany (envs : List SweepEnv) (snaps : StrMap GoalSnapshot) : StrMap GoalSnapshot :=
  envs.foldl (fun acc env => finalizeClosedGoalSnapshots env acc) snaps

/-! ## Helper lemmas for the merge and snapshot claims -/

theorem recHas_set {α : Type} (m : StrMap α) (a : String) (v : α) (k : String) :
    recHas (recSet m a v) k = true ↔ (k = a ∨ recHas m k = true) := by
  simp only [recHas, recGet_set]
  by_cases h : k = a <;> simp [h]

theorem recHas_of_getD_ne {α : Type} [DecidableEq α] (m : StrMap α) (k : String) (d : α)
    (h : recGetD m k d ≠ d) : recHas m k = true := by
  cases hg : recGet m k with
  | none => exact absurd (by simp [recGetD, hg]) h
  | some v => simp [recHas, hg]

theorem mergeCompletedAtEntry_has (m : CompletedAtMap) (e : String × String) (k : String) :
    recHas (mergeCompletedAtEntry m e) k = true ↔
      (recHas m k = true ∨ (e.1 = k ∧ e.2 ≠ "")) := by
  unfold mergeCompletedAtEntry
  by_cases h2 : e.2 = ""
  · rw [if_pos h2]
    simp [h2]
  · rw [if_neg h2]
    by_cases hex : recGetD m e.1 "" = ""
    · rw [if_pos hex, recHas_set]
      constructor
      · rintro (h | h)
        · exact Or.inr ⟨h.symm, h2⟩
        · exact Or.inl h
      · rintro (h | ⟨h, _⟩)
        · exact Or.inr h
        · exact Or.inl h.symm
    · rw [if_neg hex]
      have hhas : recHas m e.1 = true := recHas_of_getD_ne m e.1 "" hex
      have hside : (recHas m k = true ∨ (e.1 = k ∧ e.2 ≠ "")) ↔ recHas m k = true := by
        constructor
        · rintro (h | ⟨h, _⟩)
          · exact h
          · exact h ▸ hhas
        · exact Or.inl
      by_cases hcond : ((parseIsoDate e.2).isSome &&
          ((parseIsoDate (recGetD m e.1 "")).isNone ||
            jsLtOpt (parseIsoDate e.2) (parseIsoDate (recGetD m e.1 "")))) = true
      · rw [if_pos hcond, recHas_set, hside]
        constructor
        · rintro (h | h)
          · rw [h]; exact hhas
          · exact h
        · exact Or.inr
      · rw [if_neg hcond, hside]

/-! ## Claim theorems -/

theorem recSet_self {α : Type} (m : StrMap α) (k : String) (v : α)
    (h : recGet m k = some v) : recSet m k v = m := by
  induction m with
  | nil => simp [recGet_nil] at h
  | cons a m ih =>
      obtain ⟨a1, a2⟩ := a
      rw [recGet_cons] at h
      rw [recSet]
      by_cases ha : (a1, a2).1 = k
      · rw [if_pos ha] at h
        rw [if_pos ha]
        simp only at ha
        simp only [Option.some.injEq] at h
        subst ha
        rw [h]
      · rw [if_neg ha] at h
        rw [if_neg ha, ih h]

theorem recHas_mem_keys {α : Type} (m : StrMap α) (k : String) :
    recHas m k = true ↔ k ∈ m.map Prod.fst := by
  induction m with
  | nil => simp [recHas, recGet_nil]
  | cons a m ih =>
      rw [recHas_cons, List.map_cons, List.mem_cons]
      simp only [decide_eq_true_eq]
      constructor
      · rintro (h | h)
        · exact Or.inl h.symm
        · exact Or.inr (ih.mp h)
      · rintro (h | h)
        · exact Or.inl h.symm
        · exact Or.inr (ih.mpr h)

theorem keys_recSet {α : Type} (m : StrMap α) (k : String) (v : α) :
    (recSet m k v).map Prod.fst
      = if recHas m k then m.map Prod.fst else m.map Prod.fst ++ [k] := by
  induction m with
  | nil => simp [recSet, recHas, recGet_nil]
  | cons a m ih =>
      rw [recSet, recHas_cons]
      by_cases ha : a.1 = k
      · simp [ha]
      · by_cases hm : recHas m k = true
        · simp [ha, hm, ih]
        · simp [ha, hm, ih]

theorem recNodup_recSet {α : Type} (m : StrMap α) (k : String) (v : α)
    (h : recNodup m) : recNodup (recSet m k v) := by
  unfold recNodup at *
  rw [keys_recSet]
  by_cases hm : recHas m k
  · rw [if_pos hm]
    exact h
  · rw [if_neg hm]
    have hk : k ∉ m.map Prod.fst := fun hmem => hm ((recHas_mem_keys m k).mpr hmem)
    rw [List.nodup_append]
    exact ⟨h, List.nodup_singleton k, by simpa [List.disjoint_singleton] using hk⟩

theorem recNodup_backfill (vols : StrMap VolumeData) (catalog : StrMap Int)
    (map : CompletedAtMap) (nowIso : String) :
    ∀ acc : CompletedAtMap, recNodup acc →
      recNodup (vols.foldl (backfillStep map catalog nowIso) acc) := by
  induction vols with
  | nil => intro acc h; exact h
  | cons e rest ih =>
      intro acc h
      rw [List.foldl_cons]
      apply ih
      unfold backfillStep
      split_ifs
      · exact h
      · exact recNodup_recSet _ _ _ h
      · exact recNodup_recSet _ _ _ h
      · exact h

theorem backfillStep_keeps (map : CompletedAtMap) (catalog : StrMap Int)
    (nowIso : String) (hn : nowIso ≠ "") (acc : CompletedAtMap)
    (e : String × VolumeData) (k : String) (h : recGetD acc k "" ≠ "") :
    recGetD (backfillStep map catalog nowIso acc e) k "" ≠ "" := by
  unfold backfillStep
  split_ifs with h1 h2 h3
  · exact h
  · rw [recGetD, recGet_set]
    by_cases hk : k = e.1
    · rw [if_pos hk, Option.getD_some]
      exact h3
    · rw [if_neg hk]
      exact h
  · rw [recGetD, recGet_set]
    by_cases hk : k = e.1
    · rw [if_pos hk, Option.getD_some]
      exact hn
    · rw [if_neg hk]
      exact h
  · exact h

theorem backfill_foldl_keeps (map : CompletedAtMap) (catalog : StrMap Int)
    (nowIso : String) (hn : nowIso ≠ "") :
    ∀ (l : StrMap VolumeData) (acc : CompletedAtMap) (k : String),
      recGetD acc k "" ≠ "" →
      recGetD (l.foldl (backfillStep map catalog nowIso) acc) k "" ≠ "" := by
  intro l
  induction l with
  | nil => intro acc k h; exact h
  | cons e rest ih =>
      intro acc k h
      exact ih _ _ (backfillStep_keeps map catalog nowIso hn acc e k h)

theorem backfill_completed_nonempty (map : CompletedAtMap) (catalog : StrMap Int)
    (nowIso : String) (hn : nowIso ≠ "") :
    ∀ (vols : StrMap VolumeData) (acc : CompletedAtMap),
      (∀ e ∈ vols, recGetD map e.1 "" ≠ "" → recGetD acc e.1 "" ≠ "") →
      ∀ e ∈ vols, isVolumeCompleted e.2 (recGetD catalog e.1 0) = true →
        recGetD (vols.foldl (backfillStep map catalog nowIso) acc) e.1 "" ≠ "" := by
  intro vols
  induction vols with
  | nil =>
      intro acc _ e he
      exact absurd he (List.not_mem_nil e)
  | cons e0 rest ih =>
      intro acc hinv e he hcomp
      rw [List.foldl_cons]
      rcases List.mem_cons.mp he with he0 | herest
      · subst he0
        apply backfill_foldl_keeps map catalog nowIso hn rest
        unfold backfillStep
        by_cases hm : recGetD map e.1 "" ≠ ""
        · rw [if_pos hm]
          exact hinv e (List.mem_cons_self e rest) hm
        · rw [if_neg hm, if_pos hcomp, recGetD, recGet_set, if_pos rfl, Option.getD_some]
          split_ifs with hlpu
          · exact hlpu
          · exact hn
      · exact ih (backfillStep map catalog nowIso acc e0)
          (fun e' he' hm => backfillStep_keeps map catalog nowIso hn acc e0 e'.1
            (hinv e' (List.mem_cons_of_mem _ he') hm))
          e herest hcomp

theorem backfillStep_id (map : CompletedAtMap) (catalog : StrMap Int) (nowIso : String)
    (acc : CompletedAtMap) (e : String × VolumeData)
    (h : recGetD map e.1 "" ≠ "" ∨ isVolumeCompleted e.2 (recGetD catalog e.1 0) = false) :
    backfillStep map catalog nowIso acc e = acc := by
  unfold backfillStep
  rcases h with h | h
  · rw [if_pos h]
  · by_cases h1 : recGetD map e.1 "" ≠ ""
    · rw [if_pos h1]
    · rw [if_neg h1, if_neg (by simp [h])]

theorem foldl_congr_id {α β : Type} (f : α → β → α) :
    ∀ (l : List β), (∀ (acc : α) (b : β), b ∈ l → f acc b = acc) →
      ∀ acc : α, l.foldl f acc = acc := by
  intro l
  induction l with
  | nil => intro _ acc; rfl
  | cons b rest ih =>
      intro hf acc
      rw [List.foldl_cons, hf acc b (List.mem_cons_self b rest)]
      exact ih (fun a b' hb' => hf a b' (List.mem_cons_of_mem _ hb')) acc

theorem patchVolumeRecord_self (q : StrMap VolumeRecord) (e : String × String)
    (h : ∀ old, recGet q e.1 = some old → old.completedAt = e.2) :
    patchVolumeRecord q e = q := by
  unfold patchVolumeRecord
  cases hg : recGet q e.1 with
  | none => rfl
  | some old =>
      show recSet q e.1 { old with completedAt := e.2 } = q
      have hc : old.completedAt = e.2 := h old hg
      have heq : { old with completedAt := e.2 } = old := by
        obtain ⟨p1, c1, l1, ca1⟩ := old
        simp only at hc
        rw [hc]
      rw [heq]
      exact recSet_self q e.1 old hg

theorem patchVolumeRecord_get_other (acc : StrMap VolumeRecord) (e : String × String)
    (k : String) (hk : e.1 ≠ k) :
    recGet (patchVolumeRecord acc e) k = recGet acc k := by
  unfold patchVolumeRecord
  cases hg : recGet acc e.1 with
  | none => rfl
  | some old => rw [recGet_set, if_neg (fun hh => hk hh.symm)]

theorem patchVolumesPayload_get_other :
    ∀ (m : CompletedAtMap) (p : StrMap VolumeRecord) (k : String),
      (∀ e ∈ m, e.1 ≠ k) →
      recGet (patchVolumesPayload p m) k = recGet p k := by
  intro m
  induction m with
  | nil => intro p k _; rfl
  | cons e rest ih =>
      intro p k hk
      have hcons : patchVolumesPayload p (e :: rest)
          = patchVolumesPayload (patchVolumeRecord p e) rest := rfl
      rw [hcons, ih _ k (fun e' he' => hk e' (List.mem_cons_of_mem _ he')),
        patchVolumeRecord_get_other p e k (hk e (List.mem_cons_self e rest))]

theorem patchVolumesPayload_idem :
    ∀ (m : CompletedAtMap), recNodup m →
      ∀ p : StrMap VolumeRecord,
        patchVolumesPayload (patchVolumesPayload p m) m = patchVolumesPayload p m := by
  intro m
  induction m with
  | nil => intro _ p; rfl
  | cons e rest ih =>
      intro hnd p
      have hnd' : (e.1 :: rest.map Prod.fst).Nodup := by
        simpa [recNodup] using hnd
      obtain ⟨hnotin, hrest⟩ := List.nodup_cons.mp hnd'
      have hcons : ∀ q : StrMap VolumeRecord, patchVolumesPayload q (e :: rest)
          = patchVolumesPayload (patchVolumeRecord q e) rest := fun q => rfl
      rw [hcons, hcons]
      have hkeys : ∀ e' ∈ rest, e'.1 ≠ e.1 := by
        intro e' he' hh
        exact hnotin (hh ▸ List.mem_map_of_mem Prod.fst he')
      have hA : patchVolumeRecord (patchVolumesPayload (patchVolumeRecord p e) rest) e
          = patchVolumesPayload (patchVolumeRecord p e) rest := by
        apply patchVolumeRecord_self
        intro old hold
        rw [patchVolumesPayload_get_other rest _ e.1 hkeys] at hold
        cases hg : recGet p e.1 with
        | none =>
            rw [show patchVolumeRecord p e = p from by unfold patchVolumeRecord; rw [hg]]
              at hold
            rw [hg] at hold
            exact Option.noConfusion hold
        | some old0 =>
            rw [show patchVolumeRecord p e = recSet p e.1 { old0 with completedAt := e.2 }
                from by unfold patchVolumeRecord; rw [hg]] at hold
            rw [recGet_set, if_pos rfl] at hold
            injection hold with h'
            rw [← h']
      rw [hA, ih hrest (patchVolumeRecord p e)]

theorem finalizeGoalSnapshot_preserves (cam : CompletedAtMap) (now : Int)
    (gt : GoalType) (pk : String) (start end_ : Option Int)
    (snaps : StrMap GoalSnapshot) (k : String) (snap : GoalSnapshot)
    (h : recGet snaps k = some snap) :
    recGet (finalizeGoalSnapshot cam now gt pk start end_ snaps) k = some snap := by
  unfold finalizeGoalSnapshot
  by_cases hh : recHas snaps (buildGoalSnapshotKey gt pk)
  · rw [if_pos hh]
    exact h
  · rw [if_neg hh, recGet_set]
    by_cases hk : k = buildGoalSnapshotKey gt pk
    · subst hk
      exact absurd (by simp [recHas, h]) hh
    · rw [if_neg hk]
      exact h

theorem foldl_preserves_snapshot {β : Type}
    (f : StrMap GoalSnapshot → β → StrMap GoalSnapshot) (k : String) (snap : GoalSnapshot)
    (hf : ∀ acc b, recGet acc k = some snap → recGet (f acc b) k = some snap) :
    ∀ (l : List β) (init : StrMap GoalSnapshot), recGet init k = some snap →
      recGet (l.foldl f init) k = some snap := by
  intro l
  induction l with
  | nil => intro init h0; exact h0
  | cons b rest ih => intro init h0; exact ih _ (hf _ _ h0)

theorem sweepTargetStep_preserves (env : SweepEnv) (snaps0 acc : StrMap GoalSnapshot)
    (b : GoalTarget) (k : String) (snap : GoalSnapshot)
    (hacc : recGet acc k = some snap) :
    recGet (sweepTargetStep env snaps0 acc b) k = some snap := by
  unfold sweepTargetStep
  split
  · exact hacc
  · split_ifs
    · exact hacc
    · exact hacc
    · exact finalizeGoalSnapshot_preserves _ _ _ _ _ _ _ _ _ hacc

theorem sweepCustomStep_preserves (env : SweepEnv) (snaps0 acc : StrMap GoalSnapshot)
    (b : CustomGoal) (k : String) (snap : GoalSnapshot)
    (hacc : recGet acc k = some snap) :
    recGet (sweepCustomStep env snaps0 acc b) k = some snap := by
  unfold sweepCustomStep
  split
  · exact hacc
  · split
    · exact hacc
    · split_ifs
      · exact hacc
      · exact hacc
      · exact finalizeGoalSnapshot_preserves _ _ _ _ _ _ _ _ _ hacc

theorem finalizeClosedGoalSnapshots_preserves (env : SweepEnv)
    (snaps : StrMap GoalSnapshot) (k : String) (snap : GoalSnapshot)
    (h : recGet snaps k = some snap) :
    recGet (finalizeClosedGoalSnapshots env snaps) k = some snap := by
  unfold finalizeClosedGoalSnapshots
  exact foldl_preserves_snapshot _ k snap
    (fun acc b hacc => sweepCustomStep_preserves env snaps acc b k snap hacc) _ _
    (foldl_preserves_snapshot _ k snap
      (fun acc b hacc => sweepTargetStep_preserves env snaps acc b k snap hacc) _ _ h)

/-- C10: the sync merge never removes ledger entries: a key is present in
the merged map exactly when it is present locally or arrives with a
non-empty timestamp; in particular every local key survives. -/
theorem mergeCompletedAtMapFromSync_keys :
    ∀ (current incoming : CompletedAtMap) (k : String),
      recHas (mergeCompletedAtMapFromSync current incoming) k = true ↔
        (recHas current k = true ∨ ∃ p ∈ incoming, p.1 = k ∧ p.2 ≠ "") := by
  intro current incoming
  induction incoming generalizing current with
  | nil => simp [mergeCompletedAtMapFromSync]
  | cons e rest ih =>
      intro k
      have hstep : mergeCompletedAtMapFromSync current (e :: rest)
          = mergeCompletedAtMapFromSync (mergeCompletedAtEntry current e) rest := by
        simp [mergeCompletedAtMapFromSync]
      rw [hstep, ih (mergeCompletedAtEntry current e) k, mergeCompletedAtEntry_has]
      simp only [List.mem_cons]
      constructor
      · rintro ((h | h) | ⟨p, hp, h⟩)
        · exact Or.inl h
        · exact Or.inr ⟨e, Or.inl rfl, h⟩
        · exact Or.inr ⟨p, Or.inr hp, h⟩
      · rintro (h | ⟨p, hp | hp, h⟩)
        · exact Or.inl (Or.inl h)
        · exact Or.inl (Or.inr (hp ▸ h))
        · exact Or.inr ⟨p, hp, h⟩

/-- C3: the sync merge is per-key earliest-wins: with no truthy local
entry a non-empty incoming timestamp is adopted; with a parseable local
and incoming timestamp the chronologically earlier one is kept (the local
one on a tie); an unparseable incoming timestamp never replaces a
parseable local one; and merging a local Feb 1 with an incoming Jan 15
keeps the January timestamp. -/
theorem mergeCompletedAtMapFromSync_earliest_wins :
    (∀ (current : CompletedAtMap) (v c : String), c ≠ "" →
        recGet current v = none →
        recGet (mergeCompletedAtMapFromSync current [(v, c)]) v = some c) ∧
    (∀ (current : CompletedAtMap) (v c e : String) (tc te : Int),
        recGet current v = some e →
        parseIsoDate c = some tc → parseIsoDate e = some te →
        recGet (mergeCompletedAtMapFromSync current [(v, c)]) v
          = some (if tc < te then c else e)) ∧
    (∀ (current : CompletedAtMap) (v c e : String) (te : Int),
        recGet current v = some e → parseIsoDate e = some te →
        parseIsoDate c = none →
        recGet (mergeCompletedAtMapFromSync current [(v, c)]) v = some e) ∧
    recGet (mergeCompletedAtMapFromSync [("v1", "2024-02-01T00:00:00Z")]
        [("v1", "2024-01-15T00:00:00Z")]) "v1" = some "2024-01-15T00:00:00Z" := by
  have hone : ∀ (current : CompletedAtMap) (v c : String),
      mergeCompletedAtMapFromSync current [(v, c)] = mergeCompletedAtEntry current (v, c) := by
    intro current v c
    simp [mergeCompletedAtMapFromSync]
  refine ⟨?_, ?_, ?_, by decide⟩
  · intro current v c hc hget
    rw [hone]
    unfold mergeCompletedAtEntry
    rw [if_neg hc, if_pos (by simp [recGetD, hget]), recGet_set, if_pos rfl]
  · intro current v c e tc te hget hpc hpe
    have he : e ≠ "" := by
      intro hh
      rw [hh] at hpe
      exact Option.noConfusion ((by decide : parseIsoDate "" = none) ▸ hpe)
    have hgd : recGetD current v "" = e := by simp [recGetD, hget]
    rw [hone]
    unfold mergeCompletedAtEntry
    rw [if_neg (show ¬ ((v, c) : String × String).2 = "" from by
        intro hh
        rw [show ((v, c) : String × String).2 = c from rfl] at hh
        rw [hh] at hpc
        exact Option.noConfusion ((by decide : parseIsoDate "" = none) ▸ hpc)),
      if_neg (show ¬ recGetD current (v, c).1 "" = "" from by rw [hgd]; exact he)]
    rw [show ((v, c) : String × String).2 = c from rfl,
      show ((v, c) : String × String).1 = v from rfl, hgd, hpc, hpe]
    by_cases hlt : tc < te
    · rw [if_pos (by simp [jsLtOpt, hlt]), if_pos hlt, recGet_set, if_pos rfl]
    · rw [if_neg (by simp [jsLtOpt, hlt]), if_neg hlt, hget]
  · intro current v c e te hget hpe hpc
    have he : e ≠ "" := by
      intro hh
      rw [hh] at hpe
      exact Option.noConfusion ((by decide : parseIsoDate "" = none) ▸ hpe)
    have hgd : recGetD current v "" = e := by simp [recGetD, hget]
    rw [hone]
    by_cases hc : c = ""
    · unfold mergeCompletedAtEntry
      rw [if_pos (show ((v, c) : String × String).2 = "" from hc), hget]
    · unfold mergeCompletedAtEntry
      rw [if_neg (show ¬ ((v, c) : String × String).2 = "" from hc),
        if_neg (show ¬ recGetD current (v, c).1 "" = "" from by rw [hgd]; exact he)]
      rw [show ((v, c) : String × String).2 = c from rfl,
        show ((v, c) : String × String).1 = v from rfl, hgd, hpc]
      rw [if_neg (by simp), hget]

/-- Witness for C3 at the spec example: local February 1, incoming
January 15, merged result keeps the earlier January timestamp. -/
theorem mergeCompletedAtMapFromSync_earliest_wins_witness :
    recGet (mergeCompletedAtMapFromSync [("v1", "2024-02-01T00:00:00Z")]
        [("v1", "2024-01-15T00:00:00Z")]) "v1"
      = some (if jsMakeDate 2024 0 15 < jsMakeDate 2024 1 1
          then "2024-01-15T00:00:00Z" else "2024-02-01T00:00:00Z") :=
  mergeCompletedAtMapFromSync_earliest_wins.2.1 [("v1", "2024-02-01T00:00:00Z")]
    "v1" "2024-01-15T00:00:00Z" "2024-02-01T00:00:00Z"
    (jsMakeDate 2024 0 15) (jsMakeDate 2024 1 1)
    (by decide) (by decide) (by decide)

/-- C1: finalizeGoalSnapshot inserts under "goalType:periodKey" only when
absent: a second call with identical arguments returns the map unchanged;
starting from a well-formed map the two calls leave exactly one snapshot
under the key; and an existing snapshot under any key is never overwritten
by finalizeGoalSnapshot nor by any number of finalizeClosedGoalSnapshots
sweeps. -/
theorem finalizeGoalSnapshot_insert_once :
    (∀ (cam : CompletedAtMap) (now : Int) (gt : GoalType) (pk : String)
        (start end_ : Option Int) (snaps : StrMap GoalSnapshot),
      finalizeGoalSnapshot cam now gt pk start end_
          (finalizeGoalSnapshot cam now gt pk start end_ snaps)
        = finalizeGoalSnapshot cam now gt pk start end_ snaps) ∧
    (∀ (cam : CompletedAtMap) (now : Int) (gt : GoalType) (pk : String)
        (start end_ : Option Int) (snaps : StrMap GoalSnapshot),
      recCountKey snaps (buildGoalSnapshotKey gt pk) ≤ 1 →
      recCountKey (finalizeGoalSnapshot cam now gt pk start end_
            (finalizeGoalSnapshot cam now gt pk start end_ snaps))
          (buildGoalSnapshotKey gt pk) = 1) ∧
    (∀ (cam : CompletedAtMap) (now : Int) (gt : GoalType) (pk : String)
        (start end_ : Option Int) (snaps : StrMap GoalSnapshot)
        (k : String) (snap : GoalSnapshot), recGet snaps k = some snap →
      recGet (finalizeGoalSnapshot cam now gt pk start end_ snaps) k = some snap) ∧
    (∀ (envs : List SweepEnv) (snaps : StrMap GoalSnapshot)
        (k : String) (snap : GoalSnapshot), recGet snaps k = some snap →
      recGet (sweepMany envs snaps) k = some snap) := by
  have hidem : ∀ (cam : CompletedAtMap) (now : Int) (gt : GoalType) (pk : String)
      (start end_ : Option Int) (snaps : StrMap GoalSnapshot),
      finalizeGoalSnapshot cam now gt pk start end_
          (finalizeGoalSnapshot cam now gt pk start end_ snaps)
        = finalizeGoalSnapshot cam now gt pk start end_ snaps := by
    intro cam now gt pk start end_ snaps
    unfold finalizeGoalSnapshot
    by_cases hh : recHas snaps (buildGoalSnapshotKey gt pk)
    · simp [hh]
    · have hset : recHas (recSet snaps (buildGoalSnapshotKey gt pk)
          (createSnapshotForPeriod cam now gt pk start end_))
          (buildGoalSnapshotKey gt pk) = true := by
        simp [recHas, recGet_set]
      simp [hh, hset]
  refine ⟨hidem, ?_, ?_, ?_⟩
  · intro cam now gt pk start end_ snaps hle
    rw [hidem]
    unfold finalizeGoalSnapshot
    by_cases hh : recHas snaps (buildGoalSnapshotKey gt pk)
    · rw [if_pos hh]
      have := recCountKey_pos_of_has snaps (buildGoalSnapshotKey gt pk) hh
      omega
    · rw [if_neg hh, recCountKey_set]
      have hz := recCountKey_zero_of_not_has snaps (buildGoalSnapshotKey gt pk)
        (by simpa using hh)
      rw [if_pos ⟨rfl, by simpa using hh⟩, hz]
  · intro cam now gt pk start end_ snaps k snap h
    exact finalizeGoalSnapshot_preserves cam now gt pk start end_ snaps k snap h
  · intro envs snaps k snap h
    unfold sweepMany
    induction envs generalizing snaps with
    | nil => exact h
    | cons env rest ih =>
        exact ih _ (finalizeClosedGoalSnapshots_preserves env snaps k snap h)

/-- Witness for C1: finalizing the closed 2024 year period twice on an
empty snapshot map stores exactly one snapshot under "year:2024". -/
theorem finalizeGoalSnapshot_insert_once_witness :
    recCountKey (finalizeGoalSnapshot [] 0 .year "2024" none none
        (finalizeGoalSnapshot [] 0 .year "2024" none none []))
      (buildGoalSnapshotKey .year "2024") = 1 :=
  finalizeGoalSnapshot_insert_once.2.1 [] 0 .year "2024" none none [] (by decide)

/-- C5: calculateDaysRemaining counts days at local-midnight granularity
inclusive of both endpoints: on a parseable end date it equals
max(0, round((midnight(endDate)+1day - midnight(startDate))/1day)); in
particular it is 4 from Jan 5 to a "2024-01-08" deadline, 0 on an
unparseable end date, and 0 once the deadline day has fully passed. -/
theorem calculateDaysRemaining_spec :
    (∀ (s : String) (endD startDate : Int), parseLocalYMD s = some endD →
        calculateDaysRemaining s startDate = daysRemainingSpec endD startDate) ∧
    (∀ (s : String) (startDate : Int), parseLocalYMD s = none →
        calculateDaysRemaining s startDate = 0) ∧
    calculateDaysRemaining "2024-01-08" (jsMakeDate 2024 0 5) = 4 ∧
    (∀ (s : String) (endD startDate : Int), parseLocalYMD s = some endD →
        floorDay endD + 1 ≤ floorDay startDate →
        calculateDaysRemaining s startDate = 0) := by
  have key : ∀ endD startDate : Int,
      calculateDaysRemainingOfDate endD startDate = daysRemainingSpec endD startDate := by
    intro e s
    rw [calculateDaysRemainingOfDate_eq, daysRemainingSpec_eq]
  refine ⟨?_, ?_, ?_, ?_⟩
  · intro s endD st hp
    simp only [calculateDaysRemaining, hp]
    exact key endD st
  · intro s st hp
    simp only [calculateDaysRemaining, hp]
  · have hp : parseLocalYMD "2024-01-08" = some (jsMakeDate 2024 0 8) := by decide
    simp only [calculateDaysRemaining, hp, calculateDaysRemainingOfDate_eq]
    decide
  · intro s endD st hp hpast
    simp only [calculateDaysRemaining, hp, calculateDaysRemainingOfDate_eq]
    omega

/-- Witness for C5 at the concrete deadline of the spec example. -/
theorem calculateDaysRemaining_spec_witness :
    calculateDaysRemaining "2024-01-08" (jsMakeDate 2024 0 5)
      = daysRemainingSpec (jsMakeDate 2024 0 8) (jsMakeDate 2024 0 5) :=
  calculateDaysRemaining_spec.1 "2024-01-08" (jsMakeDate 2024 0 8) (jsMakeDate 2024 0 5)
    (by decide)

/-- C6: the Progress Calculator daysRemaining field is the inclusive
midnight-to-midnight day count from now to the period end, floored at 0,
and agrees with the section 4.1 deadline calculation applied to the period
final day (the period end is an exclusive bound, so the final day is one
day earlier and the deadline method then adds its day back). -/
theorem getDaysRemainingInPeriod_spec :
    (∀ (e now : Int), getDaysRemainingInPeriod e now
        = calculateDaysRemainingOfDate (e - 86400000) now) ∧
    (∀ (e now : Int), getDaysRemainingInPeriod e now
        = max 0 (floorDay e - floorDay now)) ∧
    (∀ (selection : GoalSelection) (targets : List GoalTarget)
        (customGoals : List CustomGoal) (vols : StrMap VolumeData)
        (catalog : StrMap Int) (snapshots : StrMap GoalSnapshot)
        (completedAtMap : CompletedAtMap) (now : Int) (period : GoalPeriod),
        resolveSelection now selection customGoals = some period →
        (activeGoalProgress selection targets customGoals vols catalog snapshots
            completedAtMap now).daysRemaining
          = getDaysRemainingInPeriodOpt period.end_ now) := by
  refine ⟨?_, ?_, ?_⟩
  · intro e now
    rw [getDaysRemainingInPeriod_eq, calculateDaysRemainingOfDate_eq]
    have : floorDay (e - 86400000) = floorDay e - 1 := by
      simp only [floorDay]
      omega
    omega
  · intro e now
    exact getDaysRemainingInPeriod_eq e now
  · intro selection targets customGoals vols catalog snapshots completedAtMap now period hres
    simp only [activeGoalProgress, hres]
    cases hsnap : (if jsLeOpt period.end_ now then
        recGet snapshots (buildGoalSnapshotKey period.goalType period.periodKey)
      else none) with
    | none => simp [assembleGoalProgress]
    | some snap => simp [assembleGoalProgress]

/-- Witness for C6 on the resolved 2024 year period. -/
theorem getDaysRemainingInPeriod_spec_witness :
    (activeGoalProgress (.periodSel .year "2024") [] [] [] [] [] []
        (jsMakeDate 2024 5 1)).daysRemaining
      = getDaysRemainingInPeriodOpt (some (jsMakeDate 2025 0 1)) (jsMakeDate 2024 5 1) :=
  getDaysRemainingInPeriod_spec.2.2 (.periodSel .year "2024") [] [] [] [] [] []
    (jsMakeDate 2024 5 1)
    { goalType := .year, periodKey := "2024", label := "2024",
      start := some (jsMakeDate 2024 0 1), end_ := some (jsMakeDate 2025 0 1) }
    (by decide)

/-- C7 (failing input): a month selection with the incomplete period key
"2024" resolves to a GoalPeriod whose start and end are invalid dates,
rather than to null; the NaN month index passes the range check because
both NaN comparisons are false. A non-numeric month part behaves the same
way. -/
theorem getPeriodForSelection_month_incomplete :
    (getPeriodForSelection 0 (.periodSel .month "2024")).map
        (fun p => (p.goalType, p.start, p.end_)) = some (.month, none, none) ∧
    (getPeriodForSelection 0 (.periodSel .month "2024-Jan")).map
        (fun p => (p.start, p.end_)) = some (none, none) ∧
    parseMonthKey "2024" = some (2024, none) := by
  refine ⟨by decide, by decide, by decide⟩

/-- C8: removeCustomGoal deletes the goal with the given id, leaves the
targets alone, resets the selection to the current year key exactly when
the active selection pointed at the removed id, and otherwise leaves the
selection unchanged; it is total regardless of whether a year target
exists. -/
theorem removeCustomGoal_spec :
    ∀ (customId : String) (now : Int) (data : GoalsData),
      (removeCustomGoal customId now data).targets = data.targets ∧
      (removeCustomGoal customId now data).customGoals
        = data.customGoals.filter (fun goal => goal.id != customId) ∧
      (data.activeSelection = .customSel customId →
        (removeCustomGoal customId now data).activeSelection
          = .periodSel .year (buildYearKey (getFullYear now))) ∧
      (data.activeSelection ≠ .customSel customId →
        (removeCustomGoal customId now data).activeSelection = data.activeSelection) := by
  intro customId now data
  refine ⟨rfl, rfl, ?_, ?_⟩
  · intro h
    simp [removeCustomGoal, h, getCurrentPeriodKey]
  · intro h
    cases hsel : data.activeSelection with
    | periodSel gt pk => simp [removeCustomGoal, hsel]
    | customSel cid =>
        have hne : ¬ cid = customId := fun hh => h (by rw [hsel, hh])
        simp [removeCustomGoal, hsel, hne]

/-- C4: for a selection whose resolved period is closed (end at or before
now) and has a snapshot stored under its key, the report's
completedVolumes is the size of the frozen snapshot completed set, no
in-progress or fractional credit is counted, and every field of the report
is independent of the live Completion Ledger. -/
theorem activeGoalProgress_snapshot_authoritative :
    ∀ (selection : GoalSelection) (targets : List GoalTarget)
      (customGoals : List CustomGoal) (vols : StrMap VolumeData)
      (catalog : StrMap Int) (snapshots : StrMap GoalSnapshot)
      (m1 m2 : CompletedAtMap) (now : Int) (period : GoalPeriod) (snap : GoalSnapshot),
      resolveSelection now selection customGoals = some period →
      jsLeOpt period.end_ now = true →
      recGet snapshots (buildGoalSnapshotKey period.goalType period.periodKey)
        = some snap →
      (activeGoalProgress selection targets customGoals vols catalog snapshots m1
          now).completedVolumes = snap.completed.length ∧
      (activeGoalProgress selection targets customGoals vols catalog snapshots m1
          now).inProgressVolumes = 0 ∧
      (activeGoalProgress selection targets customGoals vols catalog snapshots m1
          now).totalProgress = (snap.completed.length : ℚ) ∧
      activeGoalProgress selection targets customGoals vols catalog snapshots m1 now
        = activeGoalProgress selection targets customGoals vols catalog snapshots m2 now := by
  intro selection targets customGoals vols catalog snapshots m1 m2 now period snap
    hres hclosed hsnap
  have hred : ∀ m : CompletedAtMap,
      activeGoalProgress selection targets customGoals vols catalog snapshots m now
        = assembleGoalProgress (getTargetForSelection selection targets customGoals)
            ⟨snap.completed.length, 0, 0, 0⟩ period now (jsLeOpt period.end_ now) := by
    intro m
    unfold activeGoalProgress
    rw [hres]
    simp only [hclosed, if_true, hsnap]
  rw [hred m1, hred m2]
  refine ⟨?_, ?_, ?_, rfl⟩
  · simp [assembleGoalProgress]
  · simp [assembleGoalProgress]
  · simp [assembleGoalProgress]

/-- The resolved 2024 year period. -/
def period2024 : GoalPeriod :=
  { goalType := .year, periodKey := "2024", label := "2024",
    start := some (jsMakeDate 2024 0 1), end_ := some (jsMakeDate 2025 0 1) }

/-- A frozen snapshot of the 2024 year period holding one completion. -/
def snapshot2024 : GoalSnapshot :=
  { goalType := .year, periodKey := "2024", startDate := "2024-01-01",
    endDate := "2025-01-01", closedAt := "c",
    completed := [("v1", "2024-03-01T00:00:00Z")] }

/-- Witness for C4: with the 2024 snapshot stored and the period closed,
adding an in-window completion "v9" to the ledger leaves the whole report
unchanged. -/
theorem activeGoalProgress_snapshot_authoritative_witness :
    activeGoalProgress (.periodSel .year "2024") [] [] [] []
        [(buildGoalSnapshotKey .year "2024", snapshot2024)] [] (jsMakeDate 2025 5 1)
      = activeGoalProgress (.periodSel .year "2024") [] [] [] []
        [(buildGoalSnapshotKey .year "2024", snapshot2024)]
        [("v9", "2024-06-01T00:00:00Z")] (jsMakeDate 2025 5 1) :=
  (activeGoalProgress_snapshot_authoritative (.periodSel .year "2024") [] [] [] []
    [(buildGoalSnapshotKey .year "2024", snapshot2024)] []
    [("v9", "2024-06-01T00:00:00Z")] (jsMakeDate 2025 5 1) period2024 snapshot2024
    (by decide) (by decide) (by decide)).2.2.2

/-- A persisted state whose volumes record is present (and empty). -/
def initialPersistState : PersistState :=
  { volumesStore := some [], completedAtUpdatedAt := "2023-12-31T00:00:00.000Z" }

/-- C2 (counterexample): re-running the backfill pass with unchanged
(here: empty) progress-log and catalog inputs is not free of observable
writes: the pass persists unconditionally and refreshes the completed-at
last-updated marker with the run time, so the second run changes the
persisted state. -/
theorem backfillPass_rerun_not_silent :
    backfillPass [] [] "2024-01-02T00:00:00.000Z"
        (backfillPass [] [] "2024-01-01T00:00:00.000Z" ([], initialPersistState))
      ≠ backfillPass [] [] "2024-01-01T00:00:00.000Z" ([], initialPersistState) := by
  decide

/-- C2 (amended): a second backfill run over unchanged inputs adds no
ledger entries and mutates no timestamps (the in-memory map is unchanged),
and leaves the persisted volumes record content unchanged; but the run
still persists unconditionally, setting the last-updated marker to its own
run time, which is an observable marker write. -/
theorem backfillPass_idempotent_content :
    ∀ (vols : StrMap VolumeData) (catalog : StrMap Int) (now1 now2 : String)
      (m0 : CompletedAtMap) (ps0 : PersistState), now1 ≠ "" → recNodup m0 →
      (backfillPass vols catalog now2 (backfillPass vols catalog now1 (m0, ps0))).1
        = (backfillPass vols catalog now1 (m0, ps0)).1 ∧
      (backfillPass vols catalog now2
          (backfillPass vols catalog now1 (m0, ps0))).2.volumesStore
        = (backfillPass vols catalog now1 (m0, ps0)).2.volumesStore ∧
      (ps0.volumesStore ≠ none →
        (backfillPass vols catalog now2
            (backfillPass vols catalog now1 (m0, ps0))).2.completedAtUpdatedAt = now2) := by
  intro vols catalog now1 now2 m0 ps0 hn hnd
  have hm1nodup : recNodup (backfillCompletedAt vols catalog m0 now1) :=
    recNodup_backfill vols catalog m0 now1 m0 hnd
  have hcompl : ∀ e ∈ vols, isVolumeCompleted e.2 (recGetD catalog e.1 0) = true →
      recGetD (backfillCompletedAt vols catalog m0 now1) e.1 "" ≠ "" := by
    intro e he hc
    exact backfill_completed_nonempty m0 catalog now1 hn vols m0
      (fun _ _ h => h) e he hc
  have hstep : ∀ (acc : CompletedAtMap) (e : String × VolumeData), e ∈ vols →
      backfillStep (backfillCompletedAt vols catalog m0 now1) catalog now2 acc e = acc := by
    intro acc e he
    apply backfillStep_id
    by_cases hc : isVolumeCompleted e.2 (recGetD catalog e.1 0) = true
    · exact Or.inl (hcompl e he hc)
    · exact Or.inr (by simpa using hc)
  have hsecond : backfillCompletedAt vols catalog
      (backfillCompletedAt vols catalog m0 now1) now2
        = backfillCompletedAt vols catalog m0 now1 :=
    foldl_congr_id _ vols hstep _
  have hpass : ∀ (m : CompletedAtMap) (ps : PersistState),
      backfillPass vols catalog now2 (m, ps)
        = (backfillCompletedAt vols catalog m now2,
           persistCompletedAtMapToVolumes (backfillCompletedAt vols catalog m now2)
             now2 ps) := fun m ps => rfl
  have hpass1 : backfillPass vols catalog now1 (m0, ps0)
      = (backfillCompletedAt vols catalog m0 now1,
         persistCompletedAtMapToVolumes (backfillCompletedAt vols catalog m0 now1)
           now1 ps0) := rfl
  rw [hpass1, hpass, hsecond]
  cases hps : ps0.volumesStore with
  | none =>
      have hpersist : ∀ (m : CompletedAtMap) (nowIso : String),
          persistCompletedAtMapToVolumes m nowIso ps0 = ps0 := by
        intro m nowIso
        unfold persistCompletedAtMapToVolumes
        rw [hps]
      rw [hpersist]
      rw [hpersist]
      exact ⟨rfl, rfl, fun hcontra => absurd rfl hcontra⟩
  | some payload =>
      have hpersist1 : persistCompletedAtMapToVolumes
          (backfillCompletedAt vols catalog m0 now1) now1 ps0
          = { volumesStore := some (patchVolumesPayload payload
                (backfillCompletedAt vols catalog m0 now1)),
              completedAtUpdatedAt := now1 } := by
        unfold persistCompletedAtMapToVolumes
        rw [hps]
      rw [hpersist1]
      refine ⟨rfl, ?_, fun _ => rfl⟩
      show (persistCompletedAtMapToVolumes (backfillCompletedAt vols catalog m0 now1)
          now2 _).volumesStore = _
      unfold persistCompletedAtMapToVolumes
      simp only
      rw [patchVolumesPayload_idem (backfillCompletedAt vols catalog m0 now1) hm1nodup]

/-- A completed volume entry of the external progress log. -/
def sampleVolumeData : VolumeData :=
  { progress := 100, completed := true, lastProgressUpdate := "2024-06-01T00:00:00Z" }

/-- Witness for the amended C2: on a concrete store the second run keeps
the ledger and record content and stamps the marker with its own time. -/
theorem backfillPass_idempotent_content_witness :
    (backfillPass [("v1", sampleVolumeData)] [("v1", 100)] "2024-01-02T00:00:00.000Z"
        (backfillPass [("v1", sampleVolumeData)] [("v1", 100)]
          "2024-01-01T00:00:00.000Z" ([], initialPersistState))).2.completedAtUpdatedAt
      = "2024-01-02T00:00:00.000Z" :=
  (backfillPass_idempotent_content [("v1", sampleVolumeData)] [("v1", 100)]
    "2024-01-01T00:00:00.000Z" "2024-01-02T00:00:00.000Z" [] initialPersistState
    (by decide) (by simp [recNodup])).2.2 (by decide)

/-- A sample custom goal used by concrete instantiations. -/
def sampleGoal : CustomGoal :=
  { id := "g1", name := "n", targetVolumes := 1, startDate := "2024-01-01",
    endDate := "2024-02-01", enabled := true, createdAt := "c" }

/-- A goals store with no targets whose active selection is the sample
custom goal. -/
def sampleData : GoalsData :=
  { targets := [], customGoals := [sampleGoal], activeSelection := .customSel "g1" }

/-- A goals store with nothing in it and a year selection. -/
def emptyData : GoalsData :=
  { targets := [], customGoals := [], activeSelection := .periodSel .year "2024" }

/-- The sample custom goal with its name cleared (an invalid edit). -/
def sampleGoalNoName : CustomGoal := { sampleGoal with name := "" }

/-- Witness for C8: removing the active custom goal of a store with no
targets at all still resets the selection to the current year. -/
theorem removeCustomGoal_spec_witness :
    (removeCustomGoal "g1" 0 sampleData).activeSelection
      = .periodSel .year (buildYearKey (getFullYear 0)) :=
  (removeCustomGoal_spec "g1" 0 sampleData).2.2.1 rfl

/-- C9: invalid user input is a no-op: a non-positive target leaves the
goals data unchanged in saveTarget, and a pending custom edit with an
empty name, start date or end date, or a non-positive target, leaves both
the goals data and the pending edits unchanged in saveCustom. -/
theorem invalid_goal_input_noop :
    (∀ (gt : GoalType) (pk : String) (t : Int) (nowIso : String) (data : GoalsData),
      t ≤ 0 → saveTarget gt pk t nowIso data = data) ∧
    (∀ (customEdits : StrMap CustomGoal) (goalId : String) (data : GoalsData)
        (u : CustomGoal), recGet customEdits goalId = some u →
      (u.name = "" ∨ u.startDate = "" ∨ u.endDate = "" ∨ u.targetVolumes ≤ 0) →
      saveCustom customEdits goalId data = (data, customEdits)) := by
  constructor
  · intro gt pk t nowIso data ht
    simp [saveTarget, ht]
  · intro customEdits goalId data u hget hbad
    simp only [saveCustom, hget]
    rw [if_pos hbad]

/-- Witness for C9: a zero target and an empty-name custom edit are both
no-ops on a concrete store. -/
theorem invalid_goal_input_noop_witness :
    saveTarget .year "2024" 0 "t" emptyData = emptyData ∧
    saveCustom [("g1", sampleGoalNoName)] "g1" emptyData
      = (emptyData, [("g1", sampleGoalNoName)]) :=
  ⟨invalid_goal_input_noop.1 .year "2024" 0 "t" emptyData (by decide),
   invalid_goal_input_noop.2 [("g1", sampleGoalNoName)] "g1" emptyData sampleGoalNoName
     (by decide) (Or.inl rfl)⟩

end Goals
